import Mathlib

/-!
Shallow embedding of `src/mountinfo.rs` from anti-social/libmount.

Bytes are modelled as `Nat` (values below 256 in all real inputs); byte
strings as `List Nat`.  A row handed to the parser is the content of one
line of the mounts stream, without its terminating newline (the Rust code
obtains rows from `BufReader::split(b'\n')`, which strips the delimiter).

Rust panics (index out of bounds, `assert_eq!` failure) are modelled
explicitly with the `POut.panic` constructor, so that the embedding can
distinguish "surfaced as a `ParseError` item" from "aborts the process".
-/

set_option autoImplicit false

/-- ASCII byte string literal helper: each char of `s` as its code point.
All string literals below are ASCII, so this equals the UTF-8 bytes;
non-ASCII bytes (such as 0xFF) are written numerically instead. -/
def bs (s : String) : List Nat := s.data.map Char.toNat

/-- Rust `enum MountsParserError` (src/mountinfo.rs:12-17).  The source
interpolates the offending row / column into its `format!` messages; the
model keeps only the literal prefix of each message, which is enough to
tell the construction sites apart.  The `Read` variant carries the
underlying `std::io::Error`, modelled as a `String` description. -/
inductive MountsParserError where
  | Read (msg : String) (cause : String)
  | IncompleteRow (msg : String)
  | InvalidValue (msg : String)
deriving DecidableEq, Repr

/-- Outcome of a Rust computation that can return a value, return an
error, or panic (abort the process). -/
inductive POut (α : Type) where
  | panic (msg : String)
  | error (e : MountsParserError)
  | ok (a : α)
deriving DecidableEq, Repr

/-- Error/panic propagation: the model of `itry!` / `try!` chaining. -/
def POut.bind {α β : Type} : POut α → (α → POut β) → POut β
  | .panic m, _ => .panic m
  | .error e, _ => .error e
  | .ok a, f => f a

/-- Rust `struct MountInfo` (src/mountinfo.rs:31-43).  `c_ulong` fields
are `u64` on 64-bit Linux, modelled as `Nat` with parsing bounded by
`2^64 - 1`; `PathBuf`/`OsString` fields are raw byte sequences. -/
structure MountInfo where
  mount_id : Nat
  parent_id : Nat
  major : Nat
  minor : Nat
  root : List Nat
  mount_point : List Nat
  mount_options : List Nat
  optional_fields : List Nat
  fstype : List Nat
  mount_source : List Nat
  super_options : List Nat
deriving DecidableEq, Repr

/-! Mount flag constants, values of the `libc` crate on Linux. -/

def MS_RDONLY : Nat := 1
def MS_NOSUID : Nat := 2
def MS_NODEV : Nat := 4
def MS_NOEXEC : Nat := 8
def MS_SYNCHRONOUS : Nat := 16
def MS_MANDLOCK : Nat := 64
def MS_DIRSYNC : Nat := 128
def MS_NOATIME : Nat := 1024
def MS_NODIRATIME : Nat := 2048
def MS_RELATIME : Nat := 2097152
def MS_STRICTATIME : Nat := 16777216

/-- Rust slice `split` on a single byte predicate (`row.split(|c| *c == b' ')`):
always yields at least one (possibly empty) segment; each separator byte
ends the current segment. -/
def splitByte (sep : Nat) : List Nat → List (List Nat)
  | [] => [[]]
  | b :: rest =>
    if b = sep then
      [] :: splitByte sep rest
    else
      match splitByte sep rest with
      | s :: ss => (b :: s) :: ss
      | [] => [[b]]

/-- The if/else-if chain of `MountInfo::get_flags` (src/mountinfo.rs:50-60):
the flag bit contributed by a single option token; unmatched tokens
contribute nothing. -/
def opt_flag (opt : List Nat) : Nat :=
  if opt = bs "ro" then MS_RDONLY
  else if opt = bs "nosuid" then MS_NOSUID
  else if opt = bs "nodev" then MS_NODEV
  else if opt = bs "noexec" then MS_NOEXEC
  else if opt = bs "mand" then MS_MANDLOCK
  else if opt = bs "sync" then MS_SYNCHRONOUS
  else if opt = bs "dirsync" then MS_DIRSYNC
  else if opt = bs "noatime" then MS_NOATIME
  else if opt = bs "nodiratime" then MS_NODIRATIME
  else if opt = bs "relatime" then MS_RELATIME
  else if opt = bs "strictatime" then MS_STRICTATIME
  else 0

/-- Rust `MountInfo::get_flags` (src/mountinfo.rs:46-63): split
`mount_options` on `,` and or together the recognized flag bits. -/
def get_flags (mi : MountInfo) : Nat :=
  (splitByte 44 mi.mount_options).foldl (fun f o => f ||| opt_flag o) 0

/-- An octal ASCII digit `0`..`7` to its value. -/
def octalDigit (b : Nat) : Option Nat :=
  if 48 ≤ b ∧ b ≤ 55 then some (b - 48) else none

/-- Rust `u8::from_str_radix(s, 8)` applied to exactly three bytes (after
`String::from_utf8_lossy`, which maps non-UTF8 bytes to U+FFFD, never to a
digit or sign, so working on raw bytes is equivalent):  an optional
leading `+` sign, then octal digits, value at most 255. -/
def u8FromOctal3 (c1 c2 c3 : Nat) : Option Nat :=
  let digits := if c1 = 43 then [c2, c3] else [c1, c2, c3]
  match digits.mapM octalDigit with
  | none => none
  | some ds =>
    let v := ds.foldl (fun a d => a * 8 + d) 0
    if v ≤ 255 then some v else none

/-- The loop body of `unescape_octals` (src/mountinfo.rs:166-183) for a
nonempty buffer: `acc` is the already-scanned prefix (`v[..i]` plus the
spliced-in decoded bytes), the second argument the bytes not yet scanned.
On a backslash the source splits off the tail; fewer than 4 bytes of tail
is "Invalid escaping"; otherwise the 3 bytes after the backslash go
through `u8::from_str_radix(_, 8)` ("Expected octal number" on failure)
and the decoded byte is appended, with scanning resuming right after it:
the resumption index `i + 1` points just past the decoded byte. -/
def unescapeGo (acc : List Nat) : List Nat → POut (List Nat)
  | [] => .ok acc
  | b :: rest =>
    if b = 92 then
      match rest with
      | c1 :: c2 :: c3 :: rest2 =>
        match u8FromOctal3 c1 c2 c3 with
        | some d => unescapeGo (acc ++ [d]) rest2
        | none => .error (.InvalidValue "Expected octal number")
      | _ => .error (.InvalidValue "Invalid escaping")
    else unescapeGo (acc ++ [b]) rest

/-- Rust `unescape_octals` (src/mountinfo.rs:164-185).  The source reads
`v[i]` with `i = 0` before any bounds check, so an empty field panics
with an index-out-of-bounds; every later index is guarded by the
`i >= v.len()` loop exit. -/
def unescape_octals (v : List Nat) : POut (List Nat) :=
  match v with
  | [] => .panic "index out of bounds"
  | b :: rest => unescapeGo [] (b :: rest)

/-- Rust `parse_os_str` (src/mountinfo.rs:132-142): take the next column
(`IncompleteRow` if exhausted), unescape it, return the owned bytes
together with the remaining columns of the iterator. -/
def parse_os_str (cols : List (List Nat)) (_row : List Nat) :
    POut (List Nat × List (List Nat)) :=
  match cols with
  | [] => .error (.IncompleteRow "Expected more values in row")
  | c :: rest =>
    match unescape_octals c with
    | .panic m => .panic m
    | .error e => .error e
    | .ok v => .ok (v, rest)

/-- A decimal ASCII digit `0`..`9` to its value. -/
def decDigit (b : Nat) : Option Nat :=
  if 48 ≤ b ∧ b ≤ 57 then some (b - 48) else none

/-- Rust `str::parse::<c_ulong>` on the lossy-decoded column bytes
(`c_ulong` = `u64` on Linux): an optional leading `+`, then at least one
decimal digit, value at most `u64::MAX`.  As for the octal case, lossy
UTF-8 decoding never produces a digit from invalid bytes, so working on
raw bytes is equivalent. -/
def parseULong (s : List Nat) : Option Nat :=
  let digits := match s with
    | 43 :: rest => rest
    | _ => s
  match digits with
  | [] => none
  | _ =>
    match digits.mapM decDigit with
    | none => none
    | some ds =>
      let v := ds.foldl (fun a d => a * 10 + d) 0
      if v ≤ 18446744073709551615 then some v else none

/-- Rust `parse_int` (src/mountinfo.rs:144-156): take the next column
(`IncompleteRow` if exhausted), parse it as `c_ulong`
(`InvalidValue` on failure). -/
def parse_int (cols : List (List Nat)) (_row : List Nat) :
    POut (Nat × List (List Nat)) :=
  match cols with
  | [] => .error (.IncompleteRow "Expected more values for row")
  | c :: rest =>
    match parseULong c with
    | some n => .ok (n, rest)
    | none => .error (.InvalidValue "Cannot parse integer")

/-- Rust `parse_path` (src/mountinfo.rs:158-162): `PathBuf::from` of the
`OsString` is byte-identical, so this is `parse_os_str`. -/
def parse_path (cols : List (List Nat)) (row : List Nat) :
    POut (List Nat × List (List Nat)) :=
  parse_os_str cols row

/-- `columns.next().ok_or_else(&invalid_format)` (src/mountinfo.rs:96,104):
the closure builds `IncompleteRow("Expected more values")`. -/
def nextCol (cols : List (List Nat)) : POut (List Nat × List (List Nat)) :=
  match cols with
  | [] => .error (.IncompleteRow "Expected more values")
  | c :: rest => .ok (c, rest)

/-- `assert_eq!(separator, b"-")` (src/mountinfo.rs:105): a present
separator different from `-` is a panic, not a `MountsParserError`. -/
def assertSep (sep : List Nat) : POut Unit :=
  if sep = [45] then .ok () else .panic "assertion failed"

/-- The `major:minor` handling of `MountsParser::next`
(src/mountinfo.rs:96-99): split the column on `:` and draw two integers
from the resulting sub-iterator; further segments are never consumed. -/
def major_minor (col : List Nat) (row : List Nat) : POut (Nat × Nat) :=
  (parse_int (splitByte 58 col) row).bind fun p =>
  (parse_int p.2 row).bind fun q =>
  .ok (p.1, q.1)

/-- The column-consuming part of `MountsParser::next`
(src/mountinfo.rs:92-122), after CR stripping and splitting on spaces:
the exact sequence of `itry!` steps of the source. -/
def parse_cols (cols : List (List Nat)) (row : List Nat) : POut MountInfo :=
  (parse_int cols row).bind fun p1 =>
  (parse_int p1.2 row).bind fun p2 =>
  (nextCol p2.2).bind fun p3 =>
  (major_minor p3.1 row).bind fun mm =>
  (parse_path p3.2 row).bind fun p4 =>
  (parse_path p4.2 row).bind fun p5 =>
  (parse_os_str p5.2 row).bind fun p6 =>
  (parse_os_str p6.2 row).bind fun p7 =>
  (nextCol p7.2).bind fun p8 =>
  (assertSep p8.1).bind fun _ =>
  (parse_os_str p8.2 row).bind fun p9 =>
  (parse_os_str p9.2 row).bind fun p10 =>
  (parse_os_str p10.2 row).bind fun p11 =>
  .ok {
    mount_id := p1.1
    parent_id := p2.1
    major := mm.1
    minor := mm.2
    root := p4.1
    mount_point := p5.1
    mount_options := p6.1
    optional_fields := p7.1
    fstype := p9.1
    mount_source := p10.1
    super_options := p11.1 }

/-- CR normalization of `MountsParser::next` (src/mountinfo.rs:83-86):
`if row.ends_with(&[b'\r']) { row.truncate(row.len() - 1) }`. -/
def stripCR (row : List Nat) : List Nat :=
  if row.getLast? = some 13 then row.dropLast else row

/-- One full `Some(Ok(row))` arm of `MountsParser::next`
(src/mountinfo.rs:82-123): strip a trailing CR, split on spaces, consume
the columns. -/
def parse_row (row0 : List Nat) : POut MountInfo :=
  parse_cols (splitByte 32 (stripCR row0)) (stripCR row0)

/-- One outcome of `Split::next` on the underlying `BufReader` line
iterator: either the bytes of one line (delimiter stripped) or an I/O
error from `read_until`. -/
inductive ReadResult where
  | data (row : List Nat)
  | fail (cause : String)
deriving DecidableEq, Repr

/-- One item yielded by the `MountsParser` iterator:
`Result<MountInfo, MountsParserError>`. -/
inductive ParseItem where
  | record (mi : MountInfo)
  | err (e : MountsParserError)
deriving DecidableEq, Repr

/-- Driving the `MountsParser` iterator to exhaustion
(src/mountinfo.rs:80-129) over a stream of underlying read outcomes.
`std::io::Split` is not fused: its `next` performs a fresh `read_until`
on every call and merely forwards an `Err` as `Some(Err(e))`, so after a
read error `MountsParser::next` (which wraps it in
`MountsParserError::Read` with message "Error when reading mounts file")
keeps pulling rows; hence a `fail` element does not end the output.
A panic inside row parsing aborts the process: no item is produced for
that row and no further items follow; the second component records the
panic message if enumeration was aborted this way. -/
def parse_stream : List ReadResult → List ParseItem × Option String
  | [] => ([], none)
  | .fail e :: rest =>
    let r := parse_stream rest
    (.err (.Read "Error when reading mounts file" e) :: r.1, r.2)
  | .data row :: rest =>
    match parse_row row with
    | .panic m => ([], some m)
    | .error e =>
      let r := parse_stream rest
      (.err e :: r.1, r.2)
    | .ok mi =>
      let r := parse_stream rest
      (.record mi :: r.1, r.2)

/-! Concrete rows and records from the repository's own test suite,
shared by several theorems below. -/

/-- The `/proc` row of `test_mount_info_parser_proc`. -/
def procLine : List Nat :=
  bs "19 24 0:4 / /proc rw,nosuid,nodev,noexec,relatime shared:12 - proc proc rw"

/-- The record the `/proc` row parses to. -/
def procInfo : MountInfo :=
  { mount_id := 19
    parent_id := 24
    major := 0
    minor := 4
    root := bs "/"
    mount_point := bs "/proc"
    mount_options := bs "rw,nosuid,nodev,noexec,relatime"
    optional_fields := bs "shared:12"
    fstype := bs "proc"
    mount_source := bs "proc"
    super_options := bs "rw" }

/-- The scan loop of `unescape_octals` never panics: every index it takes
is guarded by the loop-exit check. -/
theorem unescapeGo_ne_panic (acc l : List Nat) (m : String) :
    unescapeGo acc l ≠ POut.panic m := by
  induction acc, l using unescapeGo.induct with
  | case1 acc => simp [unescapeGo]
  | case2 acc c1 c2 c3 rest2 d h ih =>
    rw [unescapeGo.eq_2]
    simpa [h] using ih
  | case3 acc c1 c2 c3 rest2 h =>
    rw [unescapeGo.eq_2]
    simp [h]
  | case4 acc rest h =>
    rw [unescapeGo.eq_3 acc 92 rest h]
    simp
  | case5 acc b rest hb ih =>
    rw [unescapeGo.eq_def]
    simpa [hb] using ih

/-- A backslash-free suffix is scanned without change. -/
theorem unescapeGo_no_bs (l : List Nat) : ∀ (acc : List Nat),
    (∀ b ∈ l, b ≠ 92) → unescapeGo acc l = POut.ok (acc ++ l) := by
  induction l with
  | nil => intro acc _; simp [unescapeGo]
  | cons b rest ih =>
    intro acc h
    have hb : b ≠ 92 := h b (List.mem_cons_self b rest)
    have hrest : ∀ x ∈ rest, x ≠ 92 := fun x hx => h x (List.mem_cons_of_mem b hx)
    rw [unescapeGo.eq_def]
    simp [hb, ih (acc ++ [b]) hrest]

/-- Scanning a backslash-free prefix, then a well-formed escape, appends
the prefix and the decoded byte to the accumulator and resumes on the
suffix: the decoded byte sits behind the resumption point and is never
rescanned. -/
theorem unescapeGo_splice (pre : List Nat) :
    ∀ (acc : List Nat) (c1 c2 c3 d : Nat) (suf : List Nat),
    (∀ b ∈ pre, b ≠ 92) → u8FromOctal3 c1 c2 c3 = some d →
    unescapeGo acc (pre ++ 92 :: c1 :: c2 :: c3 :: suf) =
      unescapeGo (acc ++ pre ++ [d]) suf := by
  induction pre with
  | nil =>
    intro acc c1 c2 c3 d suf _ hoct
    rw [List.nil_append, unescapeGo.eq_2]
    simp [hoct]
  | cons b rest ih =>
    intro acc c1 c2 c3 d suf h hoct
    have hb : b ≠ 92 := h b (List.mem_cons_self b rest)
    have hrest : ∀ x ∈ rest, x ≠ 92 := fun x hx => h x (List.mem_cons_of_mem b hx)
    rw [List.cons_append, unescapeGo.eq_def]
    simp only [if_neg hb]
    rw [ih (acc ++ [b]) c1 c2 c3 d suf hrest hoct]
    simp

/-- Slice `split` always yields at least one segment. -/
theorem splitByte_ne_nil (sep : Nat) (l : List Nat) : splitByte sep l ≠ [] := by
  cases l with
  | nil => simp [splitByte]
  | cons b rest =>
    rw [splitByte.eq_def]
    by_cases hb : b = sep
    · simp [hb]
    · simp only [if_neg hb]
      cases h : splitByte sep rest with
      | nil => simp
      | cons s ss => simp

/-- Unfolding: a leading separator opens a fresh empty segment. -/
theorem splitByte_cons_sep (sep : Nat) (rest : List Nat) :
    splitByte sep (sep :: rest) = [] :: splitByte sep rest := by
  rw [splitByte.eq_def]
  simp

/-- Unfolding: a non-separator byte joins the first segment of the split
of the rest. -/
theorem splitByte_cons_ne (sep x : Nat) (rest : List Nat) (h : x ≠ sep) :
    splitByte sep (x :: rest) =
      (x :: (splitByte sep rest).headI) :: (splitByte sep rest).tail := by
  rw [splitByte.eq_def]
  simp only [if_neg h]
  cases hs : splitByte sep rest with
  | nil => exact absurd hs (splitByte_ne_nil sep rest)
  | cons s ss => simp

/-- A separator-free list is a single segment. -/
theorem splitByte_no_sep (sep : Nat) (l : List Nat)
    (h : ∀ b ∈ l, b ≠ sep) : splitByte sep l = [l] := by
  induction l with
  | nil => simp [splitByte]
  | cons b rest ih =>
    have hb : b ≠ sep := h b (List.mem_cons_self b rest)
    have hrest : ∀ x ∈ rest, x ≠ sep := fun x hx => h x (List.mem_cons_of_mem b hx)
    rw [splitByte_cons_ne sep b rest hb, ih hrest]
    simp

/-- Splitting around an explicit separator concatenates the two splits. -/
theorem splitByte_append (sep : Nat) (a b : List Nat) :
    splitByte sep (a ++ sep :: b) = splitByte sep a ++ splitByte sep b := by
  induction a with
  | nil => simp [splitByte_cons_sep, splitByte]
  | cons x xs ih =>
    rw [List.cons_append]
    by_cases hx : x = sep
    · subst hx
      rw [splitByte_cons_sep, splitByte_cons_sep, ih, List.cons_append]
    · cases h : splitByte sep xs with
      | nil => exact absurd h (splitByte_ne_nil sep xs)
      | cons s ss =>
        rw [splitByte_cons_ne sep x _ hx, splitByte_cons_ne sep x _ hx, ih, h]
        simp

/-- Bind cannot panic when its first stage cannot and its continuation
cannot on any value the first stage actually returns. -/
theorem POut.bind_ne_panic_of {α β : Type} (x : POut α) (f : α → POut β) (m : String)
    (hx : ∀ pm, x ≠ POut.panic pm) (hf : ∀ a, x = POut.ok a → f a ≠ POut.panic m) :
    x.bind f ≠ POut.panic m := by
  cases x with
  | panic pm => exact absurd rfl (hx pm)
  | error e => simp [POut.bind]
  | ok a => exact hf a rfl

/-- Integer-column parsing never panics. -/
theorem parse_int_ne_panic (cols : List (List Nat)) (row : List Nat) (m : String) :
    parse_int cols row ≠ POut.panic m := by
  cases cols with
  | nil => simp [parse_int]
  | cons c rest => cases hu : parseULong c <;> simp [parse_int, hu]

/-- Successful integer-column parsing consumed exactly the head column. -/
theorem parse_int_ok {cols : List (List Nat)} {row : List Nat} {p : Nat × List (List Nat)}
    (h : parse_int cols row = POut.ok p) : ∃ c, cols = c :: p.2 := by
  cases cols with
  | nil => simp [parse_int] at h
  | cons c rest =>
    cases hu : parseULong c with
    | none => simp [parse_int, hu] at h
    | some n =>
      simp [parse_int, hu] at h
      exact ⟨c, by rw [← h]⟩

/-- Taking the next column never panics. -/
theorem nextCol_ne_panic (cols : List (List Nat)) (m : String) :
    nextCol cols ≠ POut.panic m := by
  cases cols <;> simp [nextCol]

/-- A successfully taken column is the head of the iterator. -/
theorem nextCol_ok {cols : List (List Nat)} {p : List Nat × List (List Nat)}
    (h : nextCol cols = POut.ok p) : cols = p.1 :: p.2 := by
  cases cols with
  | nil => simp [nextCol] at h
  | cons c rest =>
    simp [nextCol] at h
    rw [← h]

/-- The `major:minor` sub-parse is built from `parse_int` only and never
panics. -/
theorem major_minor_ne_panic (col row : List Nat) (m : String) :
    major_minor col row ≠ POut.panic m := by
  unfold major_minor
  apply POut.bind_ne_panic_of _ _ _ (fun pm => parse_int_ne_panic _ _ pm)
  intro p _
  apply POut.bind_ne_panic_of _ _ _ (fun pm => parse_int_ne_panic _ _ pm)
  intro q _
  simp

/-- String-column parsing never panics when every column of the iterator
is nonempty (the panic of `unescape_octals` needs an empty field). -/
theorem parse_os_str_ne_panic (cols : List (List Nat)) (row : List Nat) (m : String)
    (h : ∀ c ∈ cols, c ≠ []) : parse_os_str cols row ≠ POut.panic m := by
  cases cols with
  | nil => simp [parse_os_str]
  | cons c rest =>
    have hc : c ≠ [] := h c (List.mem_cons_self c rest)
    cases hu : unescape_octals c with
    | panic pm =>
      exfalso
      unfold unescape_octals at hu
      cases c with
      | nil => exact hc rfl
      | cons b cb => exact unescapeGo_ne_panic [] (b :: cb) pm hu
    | error e => simp [parse_os_str, hu]
    | ok v => simp [parse_os_str, hu]

/-- Successful string-column parsing consumed exactly the head column. -/
theorem parse_os_str_ok {cols : List (List Nat)} {row : List Nat}
    {p : List Nat × List (List Nat)}
    (h : parse_os_str cols row = POut.ok p) : ∃ c, cols = c :: p.2 := by
  cases cols with
  | nil => simp [parse_os_str] at h
  | cons c rest =>
    cases hu : unescape_octals c with
    | panic pm => simp [parse_os_str, hu] at h
    | error e => simp [parse_os_str, hu] at h
    | ok v =>
      simp [parse_os_str, hu] at h
      exact ⟨c, by rw [← h]⟩

/-- Path-column parsing never panics when every column is nonempty. -/
theorem parse_path_ne_panic (cols : List (List Nat)) (row : List Nat) (m : String)
    (h : ∀ c ∈ cols, c ≠ []) : parse_path cols row ≠ POut.panic m :=
  parse_os_str_ne_panic cols row m h

/-- Successful path-column parsing consumed exactly the head column. -/
theorem parse_path_ok {cols : List (List Nat)} {row : List Nat}
    {p : List Nat × List (List Nat)}
    (h : parse_path cols row = POut.ok p) : ∃ c, cols = c :: p.2 :=
  parse_os_str_ok h

/-- Column consumption never panics when every column is nonempty and the
eighth column, if present, is exactly `-`: the only panic sources are the
unguarded `v[0]` of `unescape_octals` on an empty field and the
`assert_eq!` on the separator. -/
theorem parse_cols_ne_panic (cols : List (List Nat)) (row : List Nat)
    (h1 : ∀ c ∈ cols, c ≠ [])
    (h2 : ∀ s, cols[7]? = some s → s = [45]) (m : String) :
    parse_cols cols row ≠ POut.panic m := by
  unfold parse_cols
  apply POut.bind_ne_panic_of _ _ _ (fun pm => parse_int_ne_panic _ _ pm)
  intro p1 e1
  obtain ⟨c0, hc0⟩ := parse_int_ok e1
  have h1a : ∀ c ∈ p1.2, c ≠ [] :=
    fun c hc => h1 c (by rw [hc0]; exact List.mem_cons_of_mem _ hc)
  have h2a : ∀ s, p1.2[6]? = some s → s = [45] :=
    fun s hs => h2 s (by rw [hc0]; simpa using hs)
  apply POut.bind_ne_panic_of _ _ _ (fun pm => parse_int_ne_panic _ _ pm)
  intro p2 e2
  obtain ⟨c1, hc1⟩ := parse_int_ok e2
  have h1b : ∀ c ∈ p2.2, c ≠ [] :=
    fun c hc => h1a c (by rw [hc1]; exact List.mem_cons_of_mem _ hc)
  have h2b : ∀ s, p2.2[5]? = some s → s = [45] :=
    fun s hs => h2a s (by rw [hc1]; simpa using hs)
  apply POut.bind_ne_panic_of _ _ _ (fun pm => nextCol_ne_panic _ pm)
  intro p3 e3
  have hc2 := nextCol_ok e3
  have h1c : ∀ c ∈ p3.2, c ≠ [] :=
    fun c hc => h1b c (by rw [hc2]; exact List.mem_cons_of_mem _ hc)
  have h2c : ∀ s, p3.2[4]? = some s → s = [45] :=
    fun s hs => h2b s (by rw [hc2]; simpa using hs)
  apply POut.bind_ne_panic_of _ _ _ (fun pm => major_minor_ne_panic _ _ pm)
  intro mm _
  apply POut.bind_ne_panic_of _ _ _ (fun pm => parse_path_ne_panic _ _ pm h1c)
  intro p4 e4
  obtain ⟨c3, hc3⟩ := parse_path_ok e4
  have h1d : ∀ c ∈ p4.2, c ≠ [] :=
    fun c hc => h1c c (by rw [hc3]; exact List.mem_cons_of_mem _ hc)
  have h2d : ∀ s, p4.2[3]? = some s → s = [45] :=
    fun s hs => h2c s (by rw [hc3]; simpa using hs)
  apply POut.bind_ne_panic_of _ _ _ (fun pm => parse_path_ne_panic _ _ pm h1d)
  intro p5 e5
  obtain ⟨c4, hc4⟩ := parse_path_ok e5
  have h1e : ∀ c ∈ p5.2, c ≠ [] :=
    fun c hc => h1d c (by rw [hc4]; exact List.mem_cons_of_mem _ hc)
  have h2e : ∀ s, p5.2[2]? = some s → s = [45] :=
    fun s hs => h2d s (by rw [hc4]; simpa using hs)
  apply POut.bind_ne_panic_of _ _ _ (fun pm => parse_os_str_ne_panic _ _ pm h1e)
  intro p6 e6
  obtain ⟨c5, hc5⟩ := parse_os_str_ok e6
  have h1f : ∀ c ∈ p6.2, c ≠ [] :=
    fun c hc => h1e c (by rw [hc5]; exact List.mem_cons_of_mem _ hc)
  have h2f : ∀ s, p6.2[1]? = some s → s = [45] :=
    fun s hs => h2e s (by rw [hc5]; simpa using hs)
  apply POut.bind_ne_panic_of _ _ _ (fun pm => parse_os_str_ne_panic _ _ pm h1f)
  intro p7 e7
  obtain ⟨c6, hc6⟩ := parse_os_str_ok e7
  have h1g : ∀ c ∈ p7.2, c ≠ [] :=
    fun c hc => h1f c (by rw [hc6]; exact List.mem_cons_of_mem _ hc)
  have h2g : ∀ s, p7.2[0]? = some s → s = [45] :=
    fun s hs => h2f s (by rw [hc6]; simpa using hs)
  apply POut.bind_ne_panic_of _ _ _ (fun pm => nextCol_ne_panic _ pm)
  intro p8 e8
  have hc7 := nextCol_ok e8
  have hsep : p8.1 = [45] := h2g p8.1 (by rw [hc7]; simp)
  have h1h : ∀ c ∈ p8.2, c ≠ [] :=
    fun c hc => h1g c (by rw [hc7]; exact List.mem_cons_of_mem _ hc)
  apply POut.bind_ne_panic_of _ _ _ (fun pm => by rw [hsep]; simp [assertSep])
  intro _ _
  apply POut.bind_ne_panic_of _ _ _ (fun pm => parse_os_str_ne_panic _ _ pm h1h)
  intro p9 e9
  obtain ⟨c8, hc8⟩ := parse_os_str_ok e9
  have h1i : ∀ c ∈ p9.2, c ≠ [] :=
    fun c hc => h1h c (by rw [hc8]; exact List.mem_cons_of_mem _ hc)
  apply POut.bind_ne_panic_of _ _ _ (fun pm => parse_os_str_ne_panic _ _ pm h1i)
  intro p10 e10
  obtain ⟨c9, hc9⟩ := parse_os_str_ok e10
  have h1j : ∀ c ∈ p10.2, c ≠ [] :=
    fun c hc => h1i c (by rw [hc9]; exact List.mem_cons_of_mem _ hc)
  apply POut.bind_ne_panic_of _ _ _ (fun pm => parse_os_str_ne_panic _ _ pm h1j)
  intro p11 _
  simp

/-- Driving the iterator over a concatenation of underlying outcomes,
when the first part is consumed without a parsing panic. -/
theorem parse_stream_append (a b : List ReadResult)
    (h : (parse_stream a).2 = none) :
    parse_stream (a ++ b) =
      ((parse_stream a).1 ++ (parse_stream b).1, (parse_stream b).2) := by
  induction a with
  | nil => simp [parse_stream]
  | cons x rest ih =>
    cases x with
    | fail e =>
      simp only [parse_stream] at h
      simp only [List.cons_append, parse_stream]
      simp [ih h]
    | data row =>
      cases hp : parse_row row with
      | panic m =>
        simp only [parse_stream, hp] at h
        exact Option.noConfusion h
      | error e =>
        simp only [parse_stream, hp] at h
        simp only [List.cons_append, parse_stream, hp]
        simp [ih h]
      | ok mi =>
        simp only [parse_stream, hp] at h
        simp only [List.cons_append, parse_stream, hp]
        simp [ih h]

/-- `get_flags` reads only the `mount_options` field. -/
theorem get_flags_options_only (a b : MountInfo)
    (h : a.mount_options = b.mount_options) : get_flags a = get_flags b := by
  unfold get_flags
  rw [h]

/-- Appending an unrecognized comma-separated token leaves the bitmask
unchanged. -/
theorem get_flags_append_unrecognized (mi : MountInfo) (tok : List Nat)
    (h0 : opt_flag tok = 0) (hc : ∀ b ∈ tok, b ≠ 44) :
    get_flags { mi with mount_options := mi.mount_options ++ 44 :: tok } =
      get_flags mi := by
  unfold get_flags
  simp only []
  rw [splitByte_append, splitByte_no_sep 44 tok hc, List.foldl_append]
  simp [h0]

/-- The escaped-whitespace row of `test_mount_info_parser_whitespaces`. -/
def wsLine : List Nat :=
  bs "76 24 8:6 / /home/my\\040super\\046name rw,relatime shared:29 - ext4 /dev/sda1 rw,data=ordered"

/-- The record the escaped-whitespace row parses to. -/
def wsInfo : MountInfo :=
  { mount_id := 76
    parent_id := 24
    major := 8
    minor := 6
    root := bs "/"
    mount_point := bs "/home/my super&name"
    mount_options := bs "rw,relatime"
    optional_fields := bs "shared:29"
    fstype := bs "ext4"
    mount_source := bs "/dev/sda1"
    super_options := bs "rw,data=ordered" }

/-- The non-UTF8 row of `test_mounts_parser_non_utf8` (the mount point
contains the raw byte 0xFF). -/
def xffLine : List Nat :=
  bs "22 24 0:19 / /" ++ [255] ++ bs " rw shared:5 - tmpfs tmpfs rw,mode=755"

/-- The record the non-UTF8 row parses to. -/
def xffInfo : MountInfo :=
  { mount_id := 22
    parent_id := 24
    major := 0
    minor := 19
    root := bs "/"
    mount_point := [47, 255]
    mount_options := bs "rw"
    optional_fields := bs "shared:5"
    fstype := bs "tmpfs"
    mount_source := bs "tmpfs"
    super_options := bs "rw,mode=755" }

/-- A nonempty backslash-free field is returned unchanged. -/
theorem unescape_octals_no_bs (v : List Nat) (hne : v ≠ [])
    (h : ∀ b ∈ v, b ≠ 92) : unescape_octals v = POut.ok v := by
  cases v with
  | nil => exact absurd rfl hne
  | cons b rest =>
    simp only [unescape_octals]
    rw [unescapeGo_no_bs (b :: rest) [] h]
    simp

/-- Decoding a well-formed escape after a backslash-free prefix keeps the
prefix, emits the decoded byte, and resumes scanning on the suffix. -/
theorem unescape_octals_splice (pre : List Nat) (c1 c2 c3 d : Nat) (suf : List Nat)
    (hpre : ∀ b ∈ pre, b ≠ 92) (hoct : u8FromOctal3 c1 c2 c3 = some d) :
    unescape_octals (pre ++ 92 :: c1 :: c2 :: c3 :: suf) =
      unescapeGo (pre ++ [d]) suf := by
  cases pre with
  | nil =>
    simp only [List.nil_append, unescape_octals]
    rw [unescapeGo.eq_2]
    simp [hoct]
  | cons b pre2 =>
    rw [List.cons_append]
    simp only [unescape_octals]
    rw [← List.cons_append, unescapeGo_splice (b :: pre2) [] c1 c2 c3 d suf hpre hoct]
    simp

/-- Claim C1 counterexample: a line with an empty path field (two
consecutive spaces before the mount point) makes the iterator panic via
the unguarded index in `unescape_octals` instead of yielding a
`ParseError` item, so advancing the iterator does not surface every
failure to the caller. -/
theorem claim1_counterexample :
    parse_stream [ReadResult.data (bs "19 24 0:4 /  /proc rw shared:12 - proc proc rw")] =
      ([], some "index out of bounds") := by decide

/-- Claim C1 (amended): advancing the iterator never panics provided
every space-separated column of the (CR-stripped) row is nonempty and the
eighth column, when present, is exactly the one-byte separator `-`; an
empty path/option field panics with an index-out-of-bounds and a present
separator different from `-` fails the `assert_eq!`, instead of yielding
error items. -/
theorem claim1_theorem :
    (∀ (row : List Nat) (m : String),
      (∀ c ∈ splitByte 32 (stripCR row), c ≠ []) →
      ((splitByte 32 (stripCR row))[7]? = some [45] ∨
        (splitByte 32 (stripCR row))[7]? = none) →
      parse_row row ≠ POut.panic m) ∧
    parse_row (bs "19 24 0:4 /  /proc rw shared:12 - proc proc rw") =
      POut.panic "index out of bounds" ∧
    parse_row (bs "19 24 0:4 / /proc rw shared:12 x proc proc rw") =
      POut.panic "assertion failed" := by
  refine ⟨?_, by decide, by decide⟩
  intro row m hA hB
  unfold parse_row
  refine parse_cols_ne_panic _ _ hA (fun s hs => ?_) m
  rcases hB with hB | hB
  · rw [hB] at hs
    exact (Option.some_inj.mp hs).symm
  · rw [hB] at hs
    exact Option.noConfusion hs

/-- Witness for C1: the well-formed `/proc` row satisfies both side
conditions and hence cannot panic. -/
theorem claim1_witness : parse_row procLine ≠ POut.panic "overflow" :=
  claim1_theorem.1 procLine "overflow" (by decide) (by decide)

/-- Claim C2 counterexample: after a failed read the iterator yields the
`Read` error item and then a further record from the next successful
read, so the sequence does not end at the read error. -/
theorem claim2_counterexample :
    parse_stream [ReadResult.fail "io", ReadResult.data procLine] =
      ([ParseItem.err (MountsParserError.Read "Error when reading mounts file" "io"),
        ParseItem.record procInfo], none) := by decide

/-- Claim C2 (amended): a failed read yields exactly one `Read` error
item, but the sequence does not end there: the underlying `Split`
iterator is not fused, so parsing resumes with the next read outcome and
later successful reads still yield their items. -/
theorem claim2_theorem :
    (∀ (e : String) (rest : List ReadResult),
      parse_stream (ReadResult.fail e :: rest) =
        (ParseItem.err (MountsParserError.Read "Error when reading mounts file" e) ::
          (parse_stream rest).1, (parse_stream rest).2)) ∧
    parse_stream [ReadResult.data procLine, ReadResult.fail "io", ReadResult.data wsLine] =
      ([ParseItem.record procInfo,
        ParseItem.err (MountsParserError.Read "Error when reading mounts file" "io"),
        ParseItem.record wsInfo], none) := by
  constructor
  · intro e rest
    simp [parse_stream]
  · decide

/-- Claim C3 counterexample: the three bytes `+77` after a backslash are
not all octal digits, yet the field decodes successfully (to byte 63,
`u8::from_str_radix` accepts a leading `+` sign) instead of failing with
`InvalidValue`. -/
theorem claim3_counterexample :
    unescape_octals (bs "a\\+77") = POut.ok [97, 63] := by decide

/-- Claim C3 (amended): a backslash followed by fewer than 3 bytes fails
with `InvalidValue` ("Invalid escaping"), and 3 following bytes that do
not parse as an octal `u8` — under `from_str_radix`, which also accepts
an optional leading `+` sign — fail with `InvalidValue` ("Expected octal
number"); so `089` and the overflowing `777` fail, a trailing `\01`
fails and poisons its whole line, but `+77` decodes to byte 63. -/
theorem claim3_theorem :
    (∀ t : List Nat, t.length ≤ 2 →
      unescape_octals (92 :: t) =
        POut.error (MountsParserError.InvalidValue "Invalid escaping")) ∧
    (∀ (c1 c2 c3 : Nat) (suf : List Nat), u8FromOctal3 c1 c2 c3 = none →
      unescape_octals (92 :: c1 :: c2 :: c3 :: suf) =
        POut.error (MountsParserError.InvalidValue "Expected octal number")) ∧
    unescape_octals (bs "/proc\\01") =
      POut.error (MountsParserError.InvalidValue "Invalid escaping") ∧
    parse_row (bs "19 24 0:4 / /proc\\01 rw,nosuid,nodev,noexec,relatime shared:12 - proc proc rw") =
      POut.error (MountsParserError.InvalidValue "Invalid escaping") ∧
    unescape_octals (bs "a\\089") =
      POut.error (MountsParserError.InvalidValue "Expected octal number") ∧
    unescape_octals (bs "a\\777") =
      POut.error (MountsParserError.InvalidValue "Expected octal number") ∧
    unescape_octals (bs "a\\+77") = POut.ok [97, 63] := by
  refine ⟨?_, ?_, by decide, by decide, by decide, by decide, by decide⟩
  · intro t ht
    rcases t with _ | ⟨x, _ | ⟨y, _ | ⟨z, r⟩⟩⟩
    · simp only [unescape_octals]
      rw [unescapeGo.eq_3 _ 92 _ (by intro c1 c2 c3 r2 h; simp at h)]
      simp
    · simp only [unescape_octals]
      rw [unescapeGo.eq_3 _ 92 _ (by intro c1 c2 c3 r2 h; simp at h)]
      simp
    · simp only [unescape_octals]
      rw [unescapeGo.eq_3 _ 92 _ (by intro c1 c2 c3 r2 h; simp at h)]
      simp
    · simp at ht
  · intro c1 c2 c3 suf hoct
    simp only [unescape_octals]
    rw [unescapeGo.eq_2]
    simp [hoct]

/-- Witness for C3: a truncated trailing escape with two bytes left. -/
theorem claim3_witness :
    unescape_octals (92 :: bs "01") =
      POut.error (MountsParserError.InvalidValue "Invalid escaping") :=
  claim3_theorem.1 (bs "01") (by decide)

/-- Claim C4 counterexample: a row that simply lacks the separator column
(and everything after it) yields a recoverable `IncompleteRow` error item
— built by the `ok_or_else` closure, not by the assertion — and
enumeration continues with the next well-formed line. -/
theorem claim4_counterexample :
    parse_stream [ReadResult.data (bs "19 24 0:4 / /proc rw shared:12"),
                  ReadResult.data procLine] =
      ([ParseItem.err (MountsParserError.IncompleteRow "Expected more values"),
        ParseItem.record procInfo], none) := by decide

/-- Claim C4 (amended): only a PRESENT separator column different from
`-` is a hard inconsistency (the `assert_eq!` panics and aborts
enumeration, losing later lines); an ABSENT separator column instead
yields a recoverable `IncompleteRow` item and enumeration continues. -/
theorem claim4_theorem :
    (∀ s : List Nat, s ≠ [45] → assertSep s = POut.panic "assertion failed") ∧
    parse_stream [ReadResult.data (bs "19 24 0:4 / /proc rw shared:12 x proc proc rw"),
                  ReadResult.data procLine] =
      ([], some "assertion failed") ∧
    parse_stream [ReadResult.data (bs "19 24 0:4 / /proc rw shared:12"),
                  ReadResult.data wsLine] =
      ([ParseItem.err (MountsParserError.IncompleteRow "Expected more values"),
        ParseItem.record wsInfo], none) := by
  refine ⟨?_, by decide, by decide⟩
  intro s hs
  simp [assertSep, hs]

/-- Witness for C4: the assertion fires on the one-byte column `x`. -/
theorem claim4_witness : assertSep (bs "x") = POut.panic "assertion failed" :=
  claim4_theorem.1 (bs "x") (by decide)

/-- Claim C5: a line-level parse failure yields exactly one error item
for that line and enumeration continues, so a later well-formed line
still yields its record; concretely for a row missing its trailing
column (IncompleteRow) and for a row with the unparseable integer `24b`
in place of `parent_id` (InvalidValue). -/
theorem claim5_theorem :
    (∀ (pre post : List ReadResult) (row : List Nat) (e : MountsParserError),
      (parse_stream pre).2 = none → parse_row row = POut.error e →
      parse_stream (pre ++ ReadResult.data row :: post) =
        ((parse_stream pre).1 ++ ParseItem.err e :: (parse_stream post).1,
          (parse_stream post).2)) ∧
    parse_stream [ReadResult.data (bs "19 24 0:4 / /proc rw,nosuid,nodev,noexec,relatime shared:12 - proc proc"),
                  ReadResult.data procLine] =
      ([ParseItem.err (MountsParserError.IncompleteRow "Expected more values in row"),
        ParseItem.record procInfo], none) ∧
    parse_stream [ReadResult.data (bs "19 24b 0:4 / /proc rw,nosuid,nodev,noexec,relatime shared:12 - proc proc rw"),
                  ReadResult.data procLine] =
      ([ParseItem.err (MountsParserError.InvalidValue "Cannot parse integer"),
        ParseItem.record procInfo], none) := by
  refine ⟨?_, by decide, by decide⟩
  intro pre post row e hpre herr
  rw [parse_stream_append pre (ReadResult.data row :: post) hpre]
  simp [parse_stream, herr]

/-- Witness for C5: an incomplete row in front of the `/proc` row. -/
theorem claim5_witness :
    parse_stream ([] ++ ReadResult.data
        (bs "19 24 0:4 / /proc rw,nosuid,nodev,noexec,relatime shared:12 - proc proc") ::
        [ReadResult.data procLine]) =
      ((parse_stream []).1 ++ ParseItem.err
          (MountsParserError.IncompleteRow "Expected more values in row") ::
          (parse_stream [ReadResult.data procLine]).1,
        (parse_stream [ReadResult.data procLine]).2) :=
  claim5_theorem.1 []
    [ReadResult.data procLine]
    (bs "19 24 0:4 / /proc rw,nosuid,nodev,noexec,relatime shared:12 - proc proc")
    (MountsParserError.IncompleteRow "Expected more values in row")
    (by decide) (by decide)

/-- Claim C6: decoding a well-formed escape replaces the 4-byte sequence
with the single decoded byte and resumes scanning just after it, so a
decoded byte — in particular a decoded backslash from `\134` — is never
re-read as the start of another escape; and the escaped-whitespace test
row parses its mount point to the byte-exact `/home/my super&name`. -/
theorem claim6_theorem :
    (∀ (pre : List Nat) (c1 c2 c3 d : Nat) (suf : List Nat),
      (∀ b ∈ pre, b ≠ 92) → u8FromOctal3 c1 c2 c3 = some d →
      unescape_octals (pre ++ 92 :: c1 :: c2 :: c3 :: suf) =
        unescapeGo (pre ++ [d]) suf) ∧
    (∀ (pre suf : List Nat),
      (∀ b ∈ pre, b ≠ 92) → (∀ b ∈ suf, b ≠ 92) →
      unescape_octals (pre ++ 92 :: 49 :: 51 :: 52 :: suf) =
        POut.ok (pre ++ 92 :: suf)) ∧
    parse_row wsLine = POut.ok wsInfo := by
  refine ⟨?_, ?_, by decide⟩
  · intro pre c1 c2 c3 d suf hpre hoct
    exact unescape_octals_splice pre c1 c2 c3 d suf hpre hoct
  · intro pre suf h1 h2
    rw [unescape_octals_splice pre 49 51 52 92 suf h1 (by decide),
      unescapeGo_no_bs suf (pre ++ [92]) h2]
    simp

/-- Witness for C6: decoding `\040` after the prefix `my` resumes on the
suffix with the space byte already emitted. -/
theorem claim6_witness :
    unescape_octals (bs "my" ++ 92 :: 48 :: 52 :: 48 :: bs "x") =
      unescapeGo (bs "my" ++ [32]) (bs "x") :=
  claim6_theorem.1 (bs "my") 48 52 48 32 (bs "x") (by decide) (by decide)

/-- Claim C7: a nonempty backslash-free field — valid UTF-8 or not — is
stored byte-for-byte unchanged; raw bytes around a decoded escape are
preserved exactly; and the 0xFF test row keeps the byte 0xFF in its
mount point. -/
theorem claim7_theorem :
    (∀ v : List Nat, v ≠ [] → (∀ b ∈ v, b ≠ 92) →
      unescape_octals v = POut.ok v) ∧
    unescape_octals ([255] ++ bs "\\040" ++ [254]) = POut.ok [255, 32, 254] ∧
    parse_row xffLine = POut.ok xffInfo := by
  refine ⟨?_, by decide, by decide⟩
  intro v hne h
  exact unescape_octals_no_bs v hne h

/-- Witness for C7: the single raw byte 0xFF survives unchanged. -/
theorem claim7_witness : unescape_octals [255] = POut.ok [255] :=
  claim7_theorem.1 [255] (by decide) (by decide)

/-- Claim C8: `get_flags` splits the option string on `,`, ors together
the bits of recognized tokens and silently ignores every unrecognized
token (including `rw`); `"rw,nosuid,nodev,noexec,relatime"` yields
exactly the union of the four corresponding bits with read-only not set,
`"rw"` alone yields 0, and the function is a pure function of the
`mount_options` field alone. -/
theorem claim8_theorem :
    (∀ (mi : MountInfo) (tok : List Nat), opt_flag tok = 0 →
      (∀ b ∈ tok, b ≠ 44) →
      get_flags { mi with mount_options := mi.mount_options ++ 44 :: tok } =
        get_flags mi) ∧
    (∀ a b : MountInfo, a.mount_options = b.mount_options →
      get_flags a = get_flags b) ∧
    get_flags procInfo = (MS_NOSUID ||| MS_NODEV ||| MS_NOEXEC ||| MS_RELATIME) ∧
    (MS_NOSUID ||| MS_NODEV ||| MS_NOEXEC ||| MS_RELATIME) &&& MS_RDONLY = 0 ∧
    get_flags { procInfo with mount_options := bs "rw" } = 0 ∧
    opt_flag (bs "rw") = 0 := by
  refine ⟨?_, ?_, by decide, by decide, by decide, by decide⟩
  · intro mi tok h0 hc
    exact get_flags_append_unrecognized mi tok h0 hc
  · intro a b h
    exact get_flags_options_only a b h

/-- Witness for C8: appending the unrecognized token `rw` to the `/proc`
options leaves the bitmask unchanged. -/
theorem claim8_witness :
    get_flags { procInfo with mount_options := procInfo.mount_options ++ 44 :: bs "rw" } =
      get_flags procInfo :=
  claim8_theorem.1 procInfo (bs "rw") (by decide) (by decide)

/-- Claim C9: the `/proc` test row parses to exactly the stated record —
mount_id 19, parent_id 24, major 0, minor 4, root `/`, mount point
`/proc`, the five string fields as listed — a CRLF-terminated copy of
the row parses identically, and its flags are the stated union. -/
theorem claim9_theorem :
    parse_row procLine = POut.ok procInfo ∧
    parse_row (procLine ++ [13]) = parse_row procLine ∧
    get_flags procInfo = (MS_NOSUID ||| MS_NODEV ||| MS_NOEXEC ||| MS_RELATIME) := by
  refine ⟨by decide, by decide, by decide⟩

/-- Claim C10: a `major:minor` column with extra `:`-separated segments
parses without error — major from the first segment, minor from the
second, the rest silently ignored — both in general and for the concrete
row with third column `0:4:extra`, which parses to the same record as
the plain `/proc` row. -/
theorem claim10_theorem :
    (∀ (a b extra row : List Nat),
      (∀ x ∈ a, x ≠ 58) → (∀ x ∈ b, x ≠ 58) →
      ∀ m n : Nat, parseULong a = some m → parseULong b = some n →
      major_minor (a ++ 58 :: (b ++ 58 :: extra)) row = POut.ok (m, n)) ∧
    parse_row (bs "19 24 0:4:extra / /proc rw,nosuid,nodev,noexec,relatime shared:12 - proc proc rw") =
      POut.ok procInfo := by
  refine ⟨?_, by decide⟩
  intro a b extra row ha hb m n hm hn
  unfold major_minor
  rw [splitByte_append, splitByte_append, splitByte_no_sep 58 a ha,
    splitByte_no_sep 58 b hb]
  simp [parse_int, hm, hn, POut.bind]

/-- Witness for C10: the column `8:6:junk` yields major 8 and minor 6. -/
theorem claim10_witness :
    major_minor (bs "8" ++ 58 :: (bs "6" ++ 58 :: bs "junk")) [] = POut.ok (8, 6) :=
  claim10_theorem.1 (bs "8") (bs "6") (bs "junk") [] (by decide) (by decide)
    8 6 (by decide) (by decide)
